import Mathlib

/-!
Shallow embedding of `library/cloudflare_ratelimit.py`, an Ansible module that
reconciles a desired Cloudflare rate-limit rule against the rules already
present in a zone.  The remote HTTP client (`CloudFlare` pip package) is an
external collaborator: it is modelled as an environment `Env` holding the
zone lookup table, the per-zone rule listings, and the responses the remote
store returns for `put` (update) and `post` (create).  Every remote call the
program makes is recorded in a trace of `Call` values so that theorems can
speak about which calls were or were not performed.

Python dictionaries of fixed shape are modelled as structures.  Rules fetched
from the remote store may be arbitrary JSON objects, so the fields that
`compare_existing_ratelimit` looks up are `Option`-valued there: a `none`
field corresponds to a missing dictionary key, and looking it up raises
`KeyError`, modelled with `Except`.
-/

namespace CFR

/-- The `request` sub-dictionary of a rule's `match`, as built in `main`. -/
structure MatchRequest where
  methods : List String
  schemes : List String
  url : String
deriving DecidableEq

/-- The `response` sub-dictionary of a rule's `match`, as built in `main`. -/
structure MatchResponse where
  status : List Int
  origin_traffic : Bool
deriving DecidableEq

/-- The `match` dictionary of a rule (request predicate plus response predicate). -/
structure Match where
  request : MatchRequest
  response : MatchResponse
deriving DecidableEq

/-- The `response` sub-dictionary of a rule's `action`, as built in `main`. -/
structure ActionResponse where
  content_type : String
  body : String
deriving DecidableEq

/-- The `action` dictionary of a rule, as built in `main`. -/
structure Action where
  mode : String
  timeout : Int
  response : ActionResponse
deriving DecidableEq

/-- The `data` dictionary assembled in `CF_API.create_ratelimit`; its fields are
listed in the construction order of the Python `dict(...)` call. -/
structure RuleData where
  disabled : Bool
  description : String
  period : Int
  threshold : Int
  action : Action
  match_ : Match
deriving DecidableEq

/-- A rule as returned by the remote store's list endpoint.  The `id` key is the
remote identifier; the keys inspected by `compare_existing_ratelimit` and by the
URL search are `Option`-valued because a JSON object from the remote store may
lack any of them (a missing key raises `KeyError` when indexed). -/
structure ExistingRule where
  id : String
  description : Option String
  disabled : Option Bool
  period : Option Int
  threshold : Option Int
  action : Option Action
  match_ : Option Match
deriving DecidableEq

/-- Python exceptions that the embedded code can raise. -/
inductive PyErr where
  | keyError : String → PyErr
  | userWarning : String → PyErr
deriving DecidableEq

deriving instance DecidableEq for Except

/-- A remote API call, as recorded in the trace: the zone lookup performed by
`CF_API.__init__`, the read-only rate-limit listing, and the two mutating
calls (`put` = update an existing rule, `post` = create a new rule). -/
inductive Call where
  | zonesGet : String → Call
  | list : String → Call
  | put : String → String → RuleData → Call
  | post : String → RuleData → Call
deriving DecidableEq

/-- The value `create_ratelimit` returns: Python `False` (nothing changed) or
the payload object the remote store answered with. -/
inductive PyResult where
  | falseRes : PyResult
  | payload : ExistingRule → PyResult
deriving DecidableEq

/-- Outcome of one run of `main`: `exit_json(changed, results)`,
`fail_json(msg)`, or an uncaught Python exception crashing the module. -/
inductive Outcome where
  | exitJson : Bool → Option ExistingRule → Outcome
  | failJson : String → Outcome
  | pythonError : String → Outcome
deriving DecidableEq

/-- The external Cloudflare client: zone-name lookup (list of zone ids),
per-zone rule listings, and the payloads returned by the mutating endpoints. -/
structure Env where
  zones : String → List String
  rate_limits : String → List ExistingRule
  putResp : String → String → RuleData → ExistingRule
  postResp : String → RuleData → ExistingRule

/-- A single quote character, used in the Python error message formats. -/
def apos : String := String.singleton (Char.ofNat 39)

/-- Module-level constant `DEFAULT_ERROR_MSG`. -/
def DEFAULT_ERROR_MSG : String := "<error>This request has been rate-limited.</error>"

/-- Module-level constant `THRESHOLD_MIN`. -/
def THRESHOLD_MIN : Int := 2

/-- Module-level constant `PERIOD_MIN`. -/
def PERIOD_MIN : Int := 2

/-- Module-level constant `THRESHOLD_MAX`. -/
def THRESHOLD_MAX : Int := 1000000

/-- Module-level constant `PERIOD_MAX`. -/
def PERIOD_MAX : Int := 86400

/-- The state object of class `CF_API`: the client handle `self.cf` and the
resolved `self.zoneid`. -/
structure CF_API where
  cf : Env
  zoneid : String

/-- `CF_API.__init__`: resolves the zone name through `cf.zones.get` and keeps
the first match's id; an empty result makes the `[0]` indexing raise
`IndexError`, which the constructor converts into
`UserWarning("Zone '%s' not found" % zone)`.  The email/token branch only
selects credentials on the client and has no observable effect here. -/
def CF_API.init (env : Env) (zone : String) : List Call × Except PyErr CF_API :=
  ([Call.zonesGet zone],
   match env.zones zone with
   | [] => .error (.userWarning ("Zone " ++ apos ++ zone ++ apos ++ " not found"))
   | zid :: _ => .ok ⟨env, zid⟩)

/-- `CF_API.list_zone_ratelimits`: the read-only listing call. -/
def CF_API.list_zone_ratelimits (s : CF_API) : List Call × List ExistingRule :=
  ([Call.list s.zoneid], s.cf.rate_limits s.zoneid)

/-- The `for rl in limits` loop body of `get_existing_ratelimit_id`: returns the
first rule whose `rl['match']['request']['url']` equals `url`.  Indexing
`rl['match']` on a rule lacking that key raises `KeyError` (the surrounding
`except IndexError` clause does not catch it). -/
def findLoop : List ExistingRule → String → Except PyErr (Option ExistingRule)
  | [], _ => .ok none
  | rl :: rest, url =>
    match rl.match_ with
    | none => .error (.keyError "match")
    | some m => if m.request.url = url then .ok (some rl) else findLoop rest url

/-- `CF_API.get_existing_ratelimit_id`: lists the zone's rules and scans them
for the first whose match URL equals `url`; `None` when there is none. -/
def CF_API.get_existing_ratelimit_id (s : CF_API) (url : String) :
    List Call × Except PyErr (Option ExistingRule) :=
  let listed := s.list_zone_ratelimits
  (listed.fst, findLoop listed.snd url)

/-- The comparison key list of `compare_existing_ratelimit`; as in the source,
`"disabled"` appears twice. -/
def compareFieldKeys : List String :=
  ["action", "match", "disabled", "period", "threshold", "disabled", "description"]

/-- A value stored under one of the compared dictionary keys. -/
inductive FieldVal where
  | s : String → FieldVal
  | b : Bool → FieldVal
  | i : Int → FieldVal
  | m : Match → FieldVal
  | a : Action → FieldVal
deriving DecidableEq

/-- Dictionary indexing `ratelimit[x]` on a fetched rule, restricted to the
keys the comparison looks up; `none` means the key is missing. -/
def ExistingRule.getField (r : ExistingRule) : String → Option FieldVal
  | "action" => r.action.map .a
  | "match" => r.match_.map .m
  | "disabled" => r.disabled.map .b
  | "period" => r.period.map .i
  | "threshold" => r.threshold.map .i
  | "description" => r.description.map .s
  | _ => none

/-- Dictionary indexing `proposed_changes[x]` on the `data` dictionary, which
always carries all six compared keys. -/
def RuleData.getField (d : RuleData) : String → Option FieldVal
  | "action" => some (.a d.action)
  | "match" => some (.m d.match_)
  | "disabled" => some (.b d.disabled)
  | "period" => some (.i d.period)
  | "threshold" => some (.i d.threshold)
  | "description" => some (.s d.description)
  | _ => none

/-- The `for x in compare` loop of `compare_existing_ratelimit`, threading the
`the_same` flag: a missing key raises `KeyError x`; a differing value clears
the flag and iteration continues. -/
def compareGo (ratelimit : ExistingRule) (proposed : RuleData) :
    List String → Bool → Except PyErr Bool
  | [], the_same => .ok the_same
  | x :: rest, the_same =>
    match ratelimit.getField x with
    | none => .error (.keyError x)
    | some v =>
      match proposed.getField x with
      | none => .error (.keyError x)
      | some w => compareGo ratelimit proposed rest (if v = w then the_same else false)

/-- `CF_API.compare_existing_ratelimit` (the method does not use `self`):
`True` when every compared field of the fetched rule equals the proposed
`data`, `False` otherwise; raises `KeyError` on a missing key. -/
def CF_API.compare_existing_ratelimit (ratelimit : ExistingRule)
    (proposed_changes : RuleData) : Except PyErr Bool :=
  compareGo ratelimit proposed_changes compareFieldKeys true

/-- `CF_API.create_ratelimit`: assembles `data`, searches for an existing rule
by URL, then either returns `False` (unchanged), updates via `put`, or creates
via `post`.  The source gives `update` the default value `True`; callers here
pass it explicitly.  `if update and existing_id` is `False` exactly when
`update` is false or the search returned `None`. -/
def CF_API.create_ratelimit (s : CF_API) (description : String) (disabled : Bool)
    (threshold : Int) (period : Int) (match_ : Match) (action : Action)
    (update : Bool) : List Call × Except PyErr PyResult :=
  let data : RuleData := ⟨disabled, description, period, threshold, action, match_⟩
  match s.get_existing_ratelimit_id match_.request.url with
  | (calls, .error e) => (calls, .error e)
  | (calls, .ok none) =>
      (calls ++ [Call.post s.zoneid data],
       .ok (.payload (s.cf.postResp s.zoneid data)))
  | (calls, .ok (some rl)) =>
      if update then
        match CF_API.compare_existing_ratelimit rl data with
        | .error e => (calls, .error e)
        | .ok true => (calls, .ok .falseRes)
        | .ok false =>
            (calls ++ [Call.put s.zoneid rl.id data],
             .ok (.payload (s.cf.putResp s.zoneid rl.id data)))
      else
        (calls ++ [Call.post s.zoneid data],
         .ok (.payload (s.cf.postResp s.zoneid data)))

/-- An element of the `match_response_status` input list: Ansible's `list`
type delivers either integers or strings. -/
inductive StatusIn where
  | i : Int → StatusIn
  | s : String → StatusIn
deriving DecidableEq

/-- ASCII whitespace, as stripped by Python `int` before parsing. -/
def isSpaceChar (c : Char) : Bool :=
  c.toNat = 32 || c.toNat = 9 || c.toNat = 10 || c.toNat = 13 ||
    c.toNat = 11 || c.toNat = 12

/-- ASCII decimal digit test. -/
def isDigitChar (c : Char) : Bool :=
  48 ≤ c.toNat && c.toNat ≤ 57

/-- Accumulate a decimal digit string into a number. -/
def digitsToNat : List Char → Nat → Nat
  | [], acc => acc
  | c :: cs, acc => digitsToNat cs (acc * 10 + (c.toNat - 48))

/-- A non-empty all-digit character sequence, or nothing. -/
def parseDigits (cs : List Char) : Option Nat :=
  if cs.isEmpty then none
  else if cs.all isDigitChar then some (digitsToNat cs 0) else none

/-- Python `int(...)` applied to a string: optional surrounding whitespace, an
optional sign, then decimal digits (underscore separators and non-ASCII digits
are not modelled).  `none` corresponds to `ValueError`. -/
def pyIntOfString (str : String) : Option Int :=
  let trimmed := ((str.data.dropWhile isSpaceChar).reverse.dropWhile
    isSpaceChar).reverse
  match trimmed with
  | [] => none
  | c :: rest =>
    if c.toNat = 45 then (parseDigits rest).map (fun n => -(n : Int))
    else if c.toNat = 43 then (parseDigits rest).map (fun n => (n : Int))
    else (parseDigits (c :: rest)).map (fun n => (n : Int))

/-- `int(x)` on one element of the status list; the error carries the Python
`ValueError` message. -/
def coerceStatus : StatusIn → Except String Int
  | .i n => .ok n
  | .s str =>
    match pyIntOfString str with
    | some n => .ok n
    | none =>
      .error ("invalid literal for int() with base 10: " ++ apos ++ str ++ apos)

/-- The list comprehension `[int(x) for x in match_response_status]`: elements
are coerced left to right, stopping at the first `ValueError`. -/
def coerceStatuses : List StatusIn → Except String (List Int)
  | [] => .ok []
  | x :: xs =>
    match coerceStatus x with
    | .error e => .error e
    | .ok n =>
      match coerceStatuses xs with
      | .error e => .error e
      | .ok ns => .ok (n :: ns)

/-- The resolved module parameters (Ansible has already applied the
`argument_spec` defaults).  `account_email`, `account_api_token` and `state`
are carried for fidelity but never influence behaviour: the credential choice
is invisible here and the `absent` state is not implemented by the source. -/
structure ModuleParams where
  account_email : Option String
  account_api_token : Option String
  zone_identifier : String
  state : String
  description : String
  disabled : Bool
  threshold : Int
  period : Int
  match_method : List String
  match_schemes : List String
  match_url : String
  match_response_status : List StatusIn
  match_response_origin : Bool
  action_mode : String
  action_timeout : Int
  action_body : String
  action_content_type : String
deriving DecidableEq

/-- The failure message `"Threshold must be between %s and %s" % (str(THRESHOLD_MIN), str(THRESHOLD_MAX))`. -/
def thresholdMsg : String :=
  "Threshold must be between " ++ toString THRESHOLD_MIN ++ " and " ++
    toString THRESHOLD_MAX

/-- The failure message `"Period must be between %s and %s" % (str(PERIOD_MIN), str(PERIOD_MAX))`. -/
def periodMsg : String :=
  "Period must be between " ++ toString PERIOD_MIN ++ " and " ++
    toString PERIOD_MAX

/-- The `match` dictionary assembled in `main` from the parameters and the
sanitized status list. -/
def buildMatch (p : ModuleParams) (sanitized : List Int) : Match :=
  ⟨⟨p.match_method, p.match_schemes, p.match_url⟩,
   ⟨sanitized, p.match_response_origin⟩⟩

/-- The `action` dictionary assembled in `main`. -/
def buildAction (p : ModuleParams) : Action :=
  ⟨p.action_mode, p.action_timeout, ⟨p.action_content_type, p.action_body⟩⟩

/-- The body of `main` (the `CloudFlare` import is assumed available, so the
`HAS_CF` guard passes): sanitize the status list (an uncaught `ValueError`
crashes the module before anything else happens), build `match` and `action`,
run the threshold and period range checks, construct `CF_API` (zone lookup),
call `create_ratelimit` with the default `update=True`, and convert the result
into `exit_json`/`fail_json`.  `CloudFlareAPIError` cannot arise from the
modelled store; `UserWarning` is caught as a parameter issue and `KeyError` is
uncaught (a crash). -/
def main (env : Env) (p : ModuleParams) : List Call × Outcome :=
  match coerceStatuses p.match_response_status with
  | .error msg => ([], .pythonError msg)
  | .ok sanitized =>
    let match_ := buildMatch p sanitized
    let action := buildAction p
    if p.threshold < THRESHOLD_MIN ∨ p.threshold > THRESHOLD_MAX then
      ([], .failJson thresholdMsg)
    else if p.period < PERIOD_MIN ∨ p.period > PERIOD_MAX then
      ([], .failJson periodMsg)
    else
      match CF_API.init env p.zone_identifier with
      | (calls, .error (.userWarning w)) =>
          (calls, .failJson ("Parameter issue, " ++ w))
      | (calls, .error (.keyError k)) =>
          (calls, .pythonError ("KeyError: " ++ apos ++ k ++ apos))
      | (calls, .ok s) =>
        match s.create_ratelimit p.description p.disabled p.threshold p.period
            match_ action true with
        | (calls2, .ok .falseRes) => (calls ++ calls2, .exitJson false none)
        | (calls2, .ok (.payload r)) => (calls ++ calls2, .exitJson true (some r))
        | (calls2, .error (.keyError k)) =>
            (calls ++ calls2, .pythonError ("KeyError: " ++ apos ++ k ++ apos))
        | (calls2, .error (.userWarning w)) =>
            (calls ++ calls2, .failJson ("Parameter issue, " ++ w))

/-- The predicate the URL search implements: the rule has a `match` key and its
`match.request.url` equals `url`. -/
def urlMatchesB (r : ExistingRule) (url : String) : Bool :=
  match r.match_ with
  | some m => decide (m.request.url = url)
  | none => false

/-- A fetched rule is well formed when it carries every key the program reads:
this is the shape of a `Rule` in the spec's data model. -/
def wf (r : ExistingRule) : Bool :=
  r.description.isSome && r.disabled.isSome && r.period.isSome &&
  r.threshold.isSome && r.action.isSome && r.match_.isSome

/-- Structural equality of a fetched rule with proposed `data` on the six
compared fields (`action`, `match`, `disabled`, `period`, `threshold`,
`description`). -/
def FieldsEq (r : ExistingRule) (d : RuleData) : Prop :=
  r.action = some d.action ∧ r.match_ = some d.match_ ∧
  r.disabled = some d.disabled ∧ r.period = some d.period ∧
  r.threshold = some d.threshold ∧ r.description = some d.description

instance (r : ExistingRule) (d : RuleData) : Decidable (FieldsEq r d) := by
  unfold FieldsEq; infer_instance

/-- The `data` dictionary `create_ratelimit` assembles from its arguments. -/
abbrev mkData (description : String) (disabled : Bool) (threshold : Int)
    (period : Int) (match_ : Match) (action : Action) : RuleData :=
  ⟨disabled, description, period, threshold, action, match_⟩

/-- The remote record of a rule whose stored fields are exactly the submitted
`data`, under remote identifier `i`. -/
def ruleOfData (i : String) (d : RuleData) : ExistingRule :=
  ⟨i, some d.description, some d.disabled, some d.period, some d.threshold,
   some d.action, some d.match_⟩

/-- Replace the rule listing of zone `z`, leaving the rest of the environment
untouched. -/
def Env.withRules (env : Env) (z : String) (rs : List ExistingRule) : Env :=
  { zones := env.zones
    rate_limits := fun zone => if zone = z then rs else env.rate_limits zone
    putResp := env.putResp
    postResp := env.postResp }

/-- Modelled from the spec: the Remote Rule Store collaborator is not part of
this repository, so its own state transition is taken from the spec's external
interface section — `create(rule)` appends the rule and assigns it a fresh
`remote_id`, and `update(remote_id, rule)` replaces the stored fields of the
rule carrying that identifier.  Read-only calls leave the listing unchanged. -/
def applyCall (newId : String) (rules : List ExistingRule) : Call → List ExistingRule
  | .post _ d => rules ++ [ruleOfData newId d]
  | .put _ i d => rules.map (fun x => if x.id = i then ruleOfData i d else x)
  | _ => rules

/-- Modelled from the spec: the rule listing after a trace of store calls, used
to express that the store faithfully records the mutations of a run. -/
def applyCalls (newId : String) (rules : List ExistingRule) (cs : List Call) :
    List ExistingRule :=
  cs.foldl (applyCall newId) rules

/-- Whether Python `int(x)` succeeds on this status-list element. -/
def numericIn : StatusIn → Bool
  | .i _ => true
  | .s str => (pyIntOfString str).isSome

/-- The integer a coercible status-list element is coerced to. -/
def forceVal : StatusIn → Int
  | .i n => n
  | .s str => (pyIntOfString str).getD 0

/-- A concrete `match` predicate used by the concrete instances below. -/
def m0 : Match :=
  ⟨⟨["GET", "POST"], ["HTTP", "HTTPS"], "example.com/api/*"⟩, ⟨[401], true⟩⟩

/-- A concrete `action` used by the concrete instances below. -/
def a0 : Action := ⟨"ban", 86400, ⟨"text/xml", DEFAULT_ERROR_MSG⟩⟩

/-- The `data` dictionary for the concrete desired rule
(description empty, enabled, threshold 60, period 60). -/
def data0 : RuleData := ⟨false, "", 60, 60, a0, m0⟩

/-- A concrete environment whose every zone lists `rules`; the store answers a
`put` or `post` with the faithful record of the submitted data. -/
def mkEnv (rules : List ExistingRule) : Env :=
  { zones := fun _ => ["zone123"]
    rate_limits := fun _ => rules
    putResp := fun _ i d => ruleOfData i d
    postResp := fun _ d => ruleOfData "fresh" d }

/-- A concrete environment whose zone lookups all resolve to zero matches. -/
def envNoZone : Env :=
  { zones := fun _ => []
    rate_limits := fun _ => []
    putResp := fun _ i d => ruleOfData i d
    postResp := fun _ d => ruleOfData "fresh" d }

/-- A stored rule with the same URL as `data0` but threshold 99. -/
def rDiff : ExistingRule :=
  ⟨"id1", some "", some false, some 60, some 99, some a0, some m0⟩

/-- A stored rule structurally equal to `data0` on every compared field. -/
def rSame : ExistingRule := ruleOfData "id2" data0

/-- A stored rule matching `data0`'s URL whose `description` key is missing. -/
def rBad : ExistingRule :=
  ⟨"idB", none, some false, some 60, some 60, some a0, some m0⟩

/-- Module parameters as the `argument_spec` defaults leave them (zone
`example.com`, match URL as in `m0`). -/
def pDefaults : ModuleParams :=
  ⟨none, none, "example.com", "present", "", false, 60, 60, ["GET", "POST"],
   ["HTTP", "HTTPS"], "example.com/api/*", [.i 401], true, "ban", 86400,
   DEFAULT_ERROR_MSG, "text/xml"⟩

/-- Default parameters with threshold 1 and a non-numeric status entry. -/
def pThrBadStatusBad : ModuleParams :=
  { pDefaults with threshold := 1, match_response_status := [.s "abc"] }

/-- Default parameters with threshold 1 only. -/
def pThrBad : ModuleParams := { pDefaults with threshold := 1 }

/-- Default parameters with a numeric-string and an integer status entry. -/
def pStatusStrings : ModuleParams :=
  { pDefaults with match_response_status := [.s "401", .i 7] }

/-- Default parameters with a non-numeric status entry. -/
def pStatusBad : ModuleParams :=
  { pDefaults with match_response_status := [.i 401, .s "abc"] }

theorem findLoop_eq_find (url : String) :
    ∀ (rules : List ExistingRule), (∀ r ∈ rules, r.match_.isSome = true) →
      findLoop rules url = .ok (rules.find? (fun rl => urlMatchesB rl url))
  | [], _ => rfl
  | rl :: rest, h => by
    obtain ⟨m, hm⟩ := Option.isSome_iff_exists.mp (h rl (by simp))
    by_cases hu : m.request.url = url
    · rw [List.find?_cons_of_pos _ (by simp [urlMatchesB, hm, hu])]
      simp [findLoop, hm, hu]
    · rw [List.find?_cons_of_neg _ (by simp [urlMatchesB, hm, hu])]
      simp only [findLoop, hm, if_neg hu]
      exact findLoop_eq_find url rest (fun r hr => h r (by simp [hr]))

theorem findLoop_some_url {rules : List ExistingRule} {url : String}
    {r : ExistingRule} (h : findLoop rules url = .ok (some r)) :
    ∃ m, r.match_ = some m ∧ m.request.url = url := by
  induction rules with
  | nil => simp [findLoop] at h
  | cons rl rest ih =>
    match hm : rl.match_ with
    | none => simp [findLoop, hm] at h
    | some m =>
      by_cases hu : m.request.url = url
      · simp only [findLoop, hm, if_pos hu, Except.ok.injEq, Option.some.injEq] at h
        cases h
        exact ⟨m, hm, hu⟩
      · simp only [findLoop, hm, if_neg hu] at h
        exact ih h

theorem compare_wf (r : ExistingRule) (d : RuleData) (h : wf r = true) :
    CF_API.compare_existing_ratelimit r d = .ok (decide (FieldsEq r d)) := by
  obtain ⟨i, de, di, pe, th, ac, mt⟩ := r
  simp only [wf, Bool.and_eq_true, Option.isSome_iff_exists] at h
  obtain ⟨⟨⟨⟨⟨⟨de', hde⟩, di', hdi⟩, pe', hpe⟩, th', hth⟩, ac', hac⟩, mt', hmt⟩ := h
  subst hde hdi hpe hth hac hmt
  by_cases h1 : ac' = d.action <;> by_cases h2 : mt' = d.match_ <;>
    by_cases h3 : di' = d.disabled <;> by_cases h4 : pe' = d.period <;>
      by_cases h5 : th' = d.threshold <;> by_cases h6 : de' = d.description <;>
        simp [CF_API.compare_existing_ratelimit, compareFieldKeys, compareGo,
          ExistingRule.getField, RuleData.getField, FieldsEq, h1, h2, h3, h4, h5, h6]

/-- Behaviour of one reconciliation run over a store of well-formed rules,
expressed through the first URL match in list order. -/
theorem create_ratelimit_eq (env : Env) (z desc : String) (dis : Bool)
    (thr per : Int) (m : Match) (a : Action) (update : Bool)
    (hWf : ∀ r ∈ env.rate_limits z, wf r = true) :
    CF_API.create_ratelimit ⟨env, z⟩ desc dis thr per m a update =
      match (env.rate_limits z).find? (fun rl => urlMatchesB rl m.request.url) with
      | none =>
          ([Call.list z, Call.post z (mkData desc dis thr per m a)],
           .ok (.payload (env.postResp z (mkData desc dis thr per m a))))
      | some rl =>
          if update then
            if FieldsEq rl (mkData desc dis thr per m a) then
              ([Call.list z], .ok .falseRes)
            else
              ([Call.list z, Call.put z rl.id (mkData desc dis thr per m a)],
               .ok (.payload (env.putResp z rl.id (mkData desc dis thr per m a))))
          else
            ([Call.list z, Call.post z (mkData desc dis thr per m a)],
             .ok (.payload (env.postResp z (mkData desc dis thr per m a)))) := by
  have hms : ∀ r ∈ env.rate_limits z, r.match_.isSome = true := by
    intro r hr
    have := hWf r hr
    simp only [wf, Bool.and_eq_true] at this
    exact this.2
  unfold CF_API.create_ratelimit CF_API.get_existing_ratelimit_id
    CF_API.list_zone_ratelimits
  dsimp only
  rw [findLoop_eq_find _ _ hms]
  rcases hfind : (env.rate_limits z).find?
      (fun rl => urlMatchesB rl m.request.url) with _ | rl
  · rfl
  · have hwfrl : wf rl = true := hWf rl (List.mem_of_find?_eq_some hfind)
    simp only []
    rw [compare_wf rl _ hwfrl]
    by_cases hu : update = true
    · subst hu
      by_cases hfe : FieldsEq rl (mkData desc dis thr per m a)
      · simp [hfe]
      · simp [hfe]
    · have : update = false := by
        cases update
        · rfl
        · exact absurd rfl hu
      subst this
      simp [mkData]

theorem countP_find_unique {p : ExistingRule → Bool} :
    ∀ (l : List ExistingRule) (r : ExistingRule), r ∈ l → p r = true →
      l.countP p = 1 → l.find? p = some r
  | [], r, hr, _, _ => absurd hr (List.not_mem_nil r)
  | a :: l, r, hr, hp, hc => by
    by_cases pa : p a = true
    · rw [List.find?_cons_of_pos _ pa]
      rw [List.countP_cons_of_pos _ _ pa] at hc
      have hl0 : l.countP p = 0 := by omega
      rcases List.mem_cons.mp hr with h | h
      · rw [h]
      · exact absurd hp (by simpa using List.countP_eq_zero.mp hl0 r h)
    · rw [List.find?_cons_of_neg _ (by simpa using pa)]
      rw [List.countP_cons_of_neg _ _ (by simpa using pa)] at hc
      rcases List.mem_cons.mp hr with h | h
      · exact absurd (h ▸ hp) pa
      · exact countP_find_unique l r h hp hc

theorem find_replace {p : ExistingRule → Bool} {q : ExistingRule} (hq : p q = true) :
    ∀ (l : List ExistingRule) (r : ExistingRule), l.find? p = some r →
      (l.map (fun x => if x.id = r.id then q else x)).find? p = some q
  | [], r, h => by simp at h
  | a :: l, r, h => by
    by_cases pa : p a = true
    · rw [List.find?_cons_of_pos _ pa] at h
      injection h with h
      subst h
      simp [hq]
    · rw [List.find?_cons_of_neg _ (by simpa using pa)] at h
      simp only [List.map_cons]
      by_cases hid : a.id = r.id
      · rw [if_pos hid, List.find?_cons_of_pos _ hq]
      · rw [if_neg hid, List.find?_cons_of_neg _ (by simpa using pa)]
        exact find_replace hq l r h

theorem find_append_none {p : ExistingRule → Bool} {l : List ExistingRule}
    (h : l.find? p = none) {x : ExistingRule} (hx : p x = true) :
    (l ++ [x]).find? p = some x := by
  rw [List.find?_append, h]
  simp [hx]

theorem wf_ruleOfData (i : String) (d : RuleData) : wf (ruleOfData i d) = true := rfl

theorem fieldsEq_ruleOfData (i : String) (d : RuleData) : FieldsEq (ruleOfData i d) d := by
  simp [FieldsEq, ruleOfData]

theorem urlMatches_ruleOfData (i : String) (d : RuleData) :
    urlMatchesB (ruleOfData i d) d.match_.request.url = true := by
  simp [urlMatchesB, ruleOfData]

/-- C1 counterexample: the store `[rDiff, rSame]` contains a rule (`rSame`)
whose `match.request.url` equals the desired rule's URL and whose compared
fields are all structurally equal to the desired rule's, yet reconcile with
`update=true` issues a mutating `put` against `rDiff` (the first URL match in
list order) and returns the store's payload, not the Unchanged result — so the
claim as stated fails. -/
theorem C1_counterexample :
    (rSame ∈ (mkEnv [rDiff, rSame]).rate_limits "z" ∧ rSame.match_ = some m0 ∧
      FieldsEq rSame data0) ∧
    CF_API.create_ratelimit ⟨mkEnv [rDiff, rSame], "z"⟩ "" false 60 60 m0 a0 true =
      ([Call.list "z", Call.put "z" "id1" data0],
       .ok (.payload (ruleOfData "id1" data0))) := by
  refine ⟨⟨by simp [mkEnv], rfl, fieldsEq_ruleOfData _ _⟩, ?_⟩
  rfl

/-- C1 (amended): for every store of well-formed rules in which the first rule
in list order whose `match.request.url` equals the desired rule's URL has
`action`, `match`, `disabled`, `period`, `threshold` and `description`
structurally equal to the desired rule's, reconcile (`create_ratelimit` with
`update=true`) makes no mutating call and returns `False` (Unchanged). -/
theorem C1_reconcile_unchanged (env : Env) (z desc : String) (dis : Bool)
    (thr per : Int) (m : Match) (a : Action) (r : ExistingRule)
    (hWf : ∀ x ∈ env.rate_limits z, wf x = true)
    (hFind : (env.rate_limits z).find? (fun rl => urlMatchesB rl m.request.url) =
      some r)
    (hEq : FieldsEq r (mkData desc dis thr per m a)) :
    CF_API.create_ratelimit ⟨env, z⟩ desc dis thr per m a true =
      ([Call.list z], .ok .falseRes) := by
  rw [create_ratelimit_eq env z desc dis thr per m a true hWf, hFind]
  simp [hEq]

/-- C1 witness: a store holding exactly the faithful record of the desired
rule makes reconcile return Unchanged with only the listing call. -/
theorem C1_witness :
    ((∀ x ∈ (mkEnv [ruleOfData "idA" data0]).rate_limits "z", wf x = true) ∧
     ((mkEnv [ruleOfData "idA" data0]).rate_limits "z").find?
         (fun rl => urlMatchesB rl m0.request.url) =
       some (ruleOfData "idA" data0) ∧
     FieldsEq (ruleOfData "idA" data0) (mkData "" false 60 60 m0 a0)) ∧
    CF_API.create_ratelimit ⟨mkEnv [ruleOfData "idA" data0], "z"⟩
        "" false 60 60 m0 a0 true =
      ([Call.list "z"], .ok .falseRes) :=
  ⟨⟨by decide, by decide, by decide⟩,
   C1_reconcile_unchanged (mkEnv [ruleOfData "idA" data0]) "z" "" false 60 60
     m0 a0 (ruleOfData "idA" data0) (by decide) (by decide) (by decide)⟩

/-- C2: if the store lists exactly one rule with the desired URL (all listed
rules well formed) and that rule's `threshold` differs from the desired one,
reconcile with `update=true` calls `put` exactly once, targeting that rule's
remote id, makes no `post`, and returns the Updated result carrying the
store's response payload. -/
theorem C2_update_on_diff (env : Env) (z desc : String) (dis : Bool)
    (thr per : Int) (m : Match) (a : Action) (r : ExistingRule)
    (hWf : ∀ x ∈ env.rate_limits z, wf x = true)
    (hMem : r ∈ env.rate_limits z)
    (hUrl : urlMatchesB r m.request.url = true)
    (hUniq : (env.rate_limits z).countP
      (fun rl => urlMatchesB rl m.request.url) = 1)
    (hThr : r.threshold ≠ some thr) :
    CF_API.create_ratelimit ⟨env, z⟩ desc dis thr per m a true =
      ([Call.list z, Call.put z r.id (mkData desc dis thr per m a)],
       .ok (.payload (env.putResp z r.id (mkData desc dis thr per m a)))) := by
  have hFind := countP_find_unique (env.rate_limits z) r hMem hUrl hUniq
  rw [create_ratelimit_eq env z desc dis thr per m a true hWf, hFind]
  have hne : ¬FieldsEq r (mkData desc dis thr per m a) := fun h =>
    hThr h.2.2.2.2.1
  simp [hne]

/-- C2 witness: a store with one rule of threshold 5 under the desired URL is
updated in place when the desired threshold is 60. -/
theorem C2_witness :
    ((∀ x ∈ (mkEnv [⟨"abc123", some "lbl", some false, some 60, some 5,
        some a0, some m0⟩]).rate_limits "z", wf x = true) ∧
     (⟨"abc123", some "lbl", some false, some 60, some 5, some a0, some m0⟩ :
        ExistingRule) ∈ (mkEnv [⟨"abc123", some "lbl", some false, some 60,
        some 5, some a0, some m0⟩]).rate_limits "z" ∧
     urlMatchesB ⟨"abc123", some "lbl", some false, some 60, some 5, some a0,
        some m0⟩ m0.request.url = true ∧
     ((mkEnv [⟨"abc123", some "lbl", some false, some 60, some 5, some a0,
        some m0⟩]).rate_limits "z").countP
         (fun rl => urlMatchesB rl m0.request.url) = 1 ∧
     (⟨"abc123", some "lbl", some false, some 60, some 5, some a0, some m0⟩ :
        ExistingRule).threshold ≠ some 60) ∧
    CF_API.create_ratelimit
        ⟨mkEnv [⟨"abc123", some "lbl", some false, some 60, some 5, some a0,
          some m0⟩], "z"⟩ "" false 60 60 m0 a0 true =
      ([Call.list "z", Call.put "z" "abc123" data0],
       .ok (.payload (ruleOfData "abc123" data0))) :=
  ⟨⟨by decide, by decide, by decide, by decide, by decide⟩,
   C2_update_on_diff (mkEnv [⟨"abc123", some "lbl", some false, some 60,
       some 5, some a0, some m0⟩]) "z" "" false 60 60 m0 a0
     ⟨"abc123", some "lbl", some false, some 60, some 5, some a0, some m0⟩
     (by decide) (by decide) (by decide) (by decide) (by decide)⟩

/-- C3: over a store of well-formed rules, reconcile issues the single `post`
(create) call and returns the Created result carrying the store's response
payload exactly when no listed rule's `match.request.url` equals the desired
rule's URL — in particular when the listing is empty — or `update` is false
(even if a matching rule exists). -/
theorem C3_create_iff (env : Env) (z desc : String) (dis : Bool)
    (thr per : Int) (m : Match) (a : Action) (update : Bool)
    (hWf : ∀ x ∈ env.rate_limits z, wf x = true) :
    CF_API.create_ratelimit ⟨env, z⟩ desc dis thr per m a update =
      ([Call.list z, Call.post z (mkData desc dis thr per m a)],
       .ok (.payload (env.postResp z (mkData desc dis thr per m a)))) ↔
    (update = false ∨
      ∀ x ∈ env.rate_limits z, urlMatchesB x m.request.url = false) := by
  rw [create_ratelimit_eq env z desc dis thr per m a update hWf]
  rcases hfind : (env.rate_limits z).find?
      (fun rl => urlMatchesB rl m.request.url) with _ | rl
  · constructor
    · intro _
      exact Or.inr fun x hx => by simpa using List.find?_eq_none.mp hfind x hx
    · intro _
      rfl
  · have hrl : urlMatchesB rl m.request.url = true := by
      simpa using List.find?_some hfind
    have hmem := List.mem_of_find?_eq_some hfind
    cases update
    · simp
    · simp only [if_true]
      constructor
      · intro h
        by_cases hfe : FieldsEq rl (mkData desc dis thr per m a)
        · rw [if_pos hfe] at h
          simp at h
        · rw [if_neg hfe] at h
          simp at h
      · intro h
        rcases h with h | h
        · simp at h
        · rw [h rl hmem] at hrl
          simp at hrl

/-- C3 witness: with an empty listing and `update=true`, reconcile creates. -/
theorem C3_witness :
    ((∀ x ∈ (mkEnv []).rate_limits "z", wf x = true) ∧
     (∀ x ∈ (mkEnv []).rate_limits "z", urlMatchesB x m0.request.url = false)) ∧
    CF_API.create_ratelimit ⟨mkEnv [], "z"⟩ "" false 60 60 m0 a0 true =
      ([Call.list "z", Call.post "z" data0],
       .ok (.payload (ruleOfData "fresh" data0))) :=
  ⟨⟨by decide, by decide⟩,
   (C3_create_iff (mkEnv []) "z" "" false 60 60 m0 a0 true (by decide)).mpr
     (Or.inr (by decide))⟩

/-- C4: idempotence.  Run reconcile once with `update=true` against a store of
well-formed rules; if the store faithfully records the created or updated rule
(per `applyCalls`, modelled from the spec) and is not otherwise modified, the
second run with the identical desired rule performs only the read-only listing
call and returns `False` (Unchanged). -/
theorem C4_idempotent (env : Env) (z desc : String) (dis : Bool)
    (thr per : Int) (m : Match) (a : Action) (newId : String)
    (hWf : ∀ x ∈ env.rate_limits z, wf x = true) :
    CF_API.create_ratelimit
        ⟨env.withRules z (applyCalls newId (env.rate_limits z)
            (CF_API.create_ratelimit ⟨env, z⟩ desc dis thr per m a true).fst),
         z⟩ desc dis thr per m a true =
      ([Call.list z], .ok .falseRes) := by
  rcases hfind : (env.rate_limits z).find?
      (fun rl => urlMatchesB rl m.request.url) with _ | rl
  · -- first run created: the store now also lists the fresh faithful record
    have htr : (CF_API.create_ratelimit ⟨env, z⟩ desc dis thr per m a true).fst =
        [Call.list z, Call.post z (mkData desc dis thr per m a)] := by
      rw [create_ratelimit_eq env z desc dis thr per m a true hWf, hfind]
    rw [htr]
    have hq : urlMatchesB (ruleOfData newId (mkData desc dis thr per m a))
        m.request.url = true :=
      urlMatches_ruleOfData newId (mkData desc dis thr per m a)
    have hrules : (env.withRules z (applyCalls newId (env.rate_limits z)
        [Call.list z, Call.post z (mkData desc dis thr per m a)])).rate_limits z =
        env.rate_limits z ++ [ruleOfData newId (mkData desc dis thr per m a)] := by
      simp [Env.withRules, applyCalls, applyCall]
    apply C1_reconcile_unchanged _ _ _ _ _ _ _ _
        (ruleOfData newId (mkData desc dis thr per m a))
    · intro x hx
      rw [hrules] at hx
      rcases List.mem_append.mp hx with h | h
      · exact hWf x h
      · rw [List.mem_singleton.mp h]
        exact wf_ruleOfData _ _
    · rw [hrules]
      exact find_append_none hfind hq
    · exact fieldsEq_ruleOfData _ _
  · by_cases hfe : FieldsEq rl (mkData desc dis thr per m a)
    · -- first run found an equal rule: no mutation, the store is unchanged
      have htr : (CF_API.create_ratelimit ⟨env, z⟩ desc dis thr per m a true).fst =
          [Call.list z] := by
        rw [create_ratelimit_eq env z desc dis thr per m a true hWf, hfind]
        simp [hfe]
      rw [htr]
      have hrules : (env.withRules z (applyCalls newId (env.rate_limits z)
          [Call.list z])).rate_limits z = env.rate_limits z := by
        simp [Env.withRules, applyCalls, applyCall]
      apply C1_reconcile_unchanged _ _ _ _ _ _ _ _ rl
      · intro x hx
        rw [hrules] at hx
        exact hWf x hx
      · rw [hrules]
        exact hfind
      · exact hfe
    · -- first run updated: the matched rule now holds the faithful record
      have htr : (CF_API.create_ratelimit ⟨env, z⟩ desc dis thr per m a true).fst =
          [Call.list z, Call.put z rl.id (mkData desc dis thr per m a)] := by
        rw [create_ratelimit_eq env z desc dis thr per m a true hWf, hfind]
        simp [hfe]
      rw [htr]
      have hq : urlMatchesB (ruleOfData rl.id (mkData desc dis thr per m a))
          m.request.url = true :=
        urlMatches_ruleOfData rl.id (mkData desc dis thr per m a)
      have hrules : (env.withRules z (applyCalls newId (env.rate_limits z)
          [Call.list z, Call.put z rl.id (mkData desc dis thr per m a)])).rate_limits
            z =
          (env.rate_limits z).map (fun x => if x.id = rl.id
            then ruleOfData rl.id (mkData desc dis thr per m a) else x) := by
        simp [Env.withRules, applyCalls, applyCall]
      apply C1_reconcile_unchanged _ _ _ _ _ _ _ _
          (ruleOfData rl.id (mkData desc dis thr per m a))
      · intro x hx
        rw [hrules] at hx
        obtain ⟨y, hy, hxy⟩ := List.mem_map.mp hx
        by_cases hid : y.id = rl.id
        · rw [← hxy, if_pos hid]
          exact wf_ruleOfData _ _
        · rw [← hxy, if_neg hid]
          exact hWf y hy
      · rw [hrules]
        exact find_replace hq (env.rate_limits z) rl hfind
      · exact fieldsEq_ruleOfData _ _

/-- C4 witness: starting from a store holding a rule with the desired URL but
threshold 99, the first run updates it and the second run is Unchanged. -/
theorem C4_witness :
    (∀ x ∈ (mkEnv [rDiff]).rate_limits "z", wf x = true) ∧
    CF_API.create_ratelimit
        ⟨(mkEnv [rDiff]).withRules "z" (applyCalls "n1"
            ((mkEnv [rDiff]).rate_limits "z")
            (CF_API.create_ratelimit ⟨mkEnv [rDiff], "z"⟩ "" false 60 60 m0 a0
              true).fst), "z"⟩ "" false 60 60 m0 a0 true =
      ([Call.list "z"], .ok .falseRes) :=
  ⟨by decide,
   C4_idempotent (mkEnv [rDiff]) "z" "" false 60 60 m0 a0 "n1" (by decide)⟩

/-- C7: when two or more listed rules (all well formed) carry the desired
`match.request.url`, the search step returns exactly the first such rule in
the order the listing delivers them, and reconcile completes with an ordinary
result rather than any error about the duplication. -/
theorem C7_duplicate_first (env : Env) (z desc : String) (dis : Bool)
    (thr per : Int) (m : Match) (a : Action)
    (hWf : ∀ x ∈ env.rate_limits z, wf x = true)
    (hDup : 2 ≤ (env.rate_limits z).countP
      (fun rl => urlMatchesB rl m.request.url)) :
    findLoop (env.rate_limits z) m.request.url =
      .ok ((env.rate_limits z).find? (fun rl => urlMatchesB rl m.request.url)) ∧
    ∃ res, (CF_API.create_ratelimit ⟨env, z⟩ desc dis thr per m a true).snd =
      .ok res := by
  have hms : ∀ r ∈ env.rate_limits z, r.match_.isSome = true := by
    intro r hr
    have := hWf r hr
    simp only [wf, Bool.and_eq_true] at this
    exact this.2
  refine ⟨findLoop_eq_find _ _ hms, ?_⟩
  rw [create_ratelimit_eq env z desc dis thr per m a true hWf]
  rcases hfind : (env.rate_limits z).find?
      (fun rl => urlMatchesB rl m.request.url) with _ | rl
  · exact ⟨_, rfl⟩
  · by_cases hfe : FieldsEq rl (mkData desc dis thr per m a)
    · refine ⟨PyResult.falseRes, ?_⟩
      simp [hfe]
    · refine ⟨PyResult.payload (env.putResp z rl.id (mkData desc dis thr per m a)),
        ?_⟩
      simp [hfe]

/-- C7 witness: two stored rules share the desired URL; the first (threshold
99) is selected and reconcile completes by updating it. -/
theorem C7_witness :
    ((∀ x ∈ (mkEnv [rDiff, rSame]).rate_limits "z", wf x = true) ∧
     2 ≤ ((mkEnv [rDiff, rSame]).rate_limits "z").countP
       (fun rl => urlMatchesB rl m0.request.url)) ∧
    (findLoop ((mkEnv [rDiff, rSame]).rate_limits "z") m0.request.url =
      .ok (((mkEnv [rDiff, rSame]).rate_limits "z").find?
        (fun rl => urlMatchesB rl m0.request.url)) ∧
     ∃ res, (CF_API.create_ratelimit ⟨mkEnv [rDiff, rSame], "z"⟩
       "" false 60 60 m0 a0 true).snd = .ok res) :=
  ⟨⟨by decide, by decide⟩,
   C7_duplicate_first (mkEnv [rDiff, rSame]) "z" "" false 60 60 m0 a0
     (by decide) (by decide)⟩

/-- C8: every invocation of reconcile, over any store contents, any desired
rule and either value of `update`, performs the read-only listing call exactly
once and at most one mutating call: its trace is either just the listing, the
listing followed by a single `put`, or the listing followed by a single
`post`. -/
theorem C8_call_discipline (env : Env) (z desc : String) (dis : Bool)
    (thr per : Int) (m : Match) (a : Action) (update : Bool) :
    (CF_API.create_ratelimit ⟨env, z⟩ desc dis thr per m a update).fst =
        [Call.list z] ∨
    (∃ i d, (CF_API.create_ratelimit ⟨env, z⟩ desc dis thr per m a update).fst =
        [Call.list z, Call.put z i d]) ∨
    (∃ d, (CF_API.create_ratelimit ⟨env, z⟩ desc dis thr per m a update).fst =
        [Call.list z, Call.post z d]) := by
  unfold CF_API.create_ratelimit CF_API.get_existing_ratelimit_id
    CF_API.list_zone_ratelimits
  dsimp only
  rcases findLoop (env.rate_limits z) m.request.url with e | o
  · exact Or.inl rfl
  · rcases o with _ | rl
    · exact Or.inr (Or.inr ⟨_, rfl⟩)
    · by_cases hu : update = true
      · subst hu
        simp only [if_true]
        rcases CF_API.compare_existing_ratelimit rl
            ⟨dis, desc, per, thr, a, m⟩ with e | b
        · exact Or.inl rfl
        · rcases b with _ | _
          · exact Or.inr (Or.inl ⟨_, _, rfl⟩)
          · exact Or.inl rfl
      · simp only [if_neg hu]
        exact Or.inr (Or.inr ⟨_, rfl⟩)

theorem coerceStatus_ok_of_numeric (x : StatusIn) (h : numericIn x = true) :
    coerceStatus x = .ok (forceVal x) := by
  cases x with
  | i n => rfl
  | s str =>
    simp only [numericIn, Option.isSome_iff_exists] at h
    obtain ⟨n, hn⟩ := h
    simp [coerceStatus, forceVal, hn]

theorem coerceStatus_error_of_bad (x : StatusIn) (h : numericIn x = false) :
    ∃ e, coerceStatus x = .error e := by
  cases x with
  | i n => simp [numericIn] at h
  | s str =>
    simp only [numericIn] at h
    have hn : pyIntOfString str = none := by
      cases hp : pyIntOfString str
      · rfl
      · rw [hp] at h
        simp at h
    exact ⟨"invalid literal for int() with base 10: " ++ apos ++ str ++ apos,
      by simp [coerceStatus, hn]⟩

theorem coerceStatuses_ok_of_numeric :
    ∀ (l : List StatusIn), (∀ x ∈ l, numericIn x = true) →
      coerceStatuses l = .ok (l.map forceVal)
  | [], _ => rfl
  | x :: xs, h => by
    have hx := coerceStatus_ok_of_numeric x (h x (by simp))
    have hxs := coerceStatuses_ok_of_numeric xs (fun y hy => h y (by simp [hy]))
    simp [coerceStatuses, hx, hxs]

theorem coerceStatuses_error_of_bad :
    ∀ (l : List StatusIn), (∃ x ∈ l, numericIn x = false) →
      ∃ e, coerceStatuses l = .error e
  | [], h => by simp at h
  | x :: xs, h => by
    by_cases hx : numericIn x = true
    · have hxok := coerceStatus_ok_of_numeric x hx
      obtain ⟨y, hy, hyb⟩ := h
      rcases List.mem_cons.mp hy with h1 | h2
      · rw [h1] at hyb
        rw [hx] at hyb
        exact absurd hyb (by simp)
      · obtain ⟨e, he⟩ := coerceStatuses_error_of_bad xs ⟨y, h2, hyb⟩
        exact ⟨e, by simp [coerceStatuses, hxok, he]⟩
    · have hxf : numericIn x = false := by
        cases hnx : numericIn x
        · rfl
        · exact absurd hnx hx
      obtain ⟨e, he⟩ := coerceStatus_error_of_bad x hxf
      exact ⟨e, by simp [coerceStatuses, he]⟩

/-- A fetched rule missing any one of the compared keys makes the field
comparison raise `KeyError` for some key, no matter what else it holds. -/
theorem compare_missing (r : ExistingRule) (d : RuleData)
    (hMiss : r.action = none ∨ r.disabled = none ∨ r.period = none ∨
      r.threshold = none ∨ r.description = none) :
    ∃ k, CF_API.compare_existing_ratelimit r d = .error (.keyError k) := by
  rcases hA : r.action with _ | av
  · exact ⟨"action", by simp [CF_API.compare_existing_ratelimit, compareFieldKeys,
      compareGo, ExistingRule.getField, RuleData.getField, hA]⟩
  · rcases hM : r.match_ with _ | mv
    · exact ⟨"match", by simp [CF_API.compare_existing_ratelimit, compareFieldKeys,
        compareGo, ExistingRule.getField, RuleData.getField, hA, hM]⟩
    · rcases hD : r.disabled with _ | dv
      · exact ⟨"disabled", by simp [CF_API.compare_existing_ratelimit,
          compareFieldKeys, compareGo, ExistingRule.getField, RuleData.getField,
          hA, hM, hD]⟩
      · rcases hP : r.period with _ | pv
        · exact ⟨"period", by simp [CF_API.compare_existing_ratelimit,
            compareFieldKeys, compareGo, ExistingRule.getField, RuleData.getField,
            hA, hM, hD, hP]⟩
        · rcases hT : r.threshold with _ | tv
          · exact ⟨"threshold", by simp [CF_API.compare_existing_ratelimit,
              compareFieldKeys, compareGo, ExistingRule.getField,
              RuleData.getField, hA, hM, hD, hP, hT]⟩
          · rcases hDe : r.description with _ | dev
            · exact ⟨"description", by simp [CF_API.compare_existing_ratelimit,
                compareFieldKeys, compareGo, ExistingRule.getField,
                RuleData.getField, hA, hM, hD, hP, hT, hDe]⟩
            · rcases hMiss with h | h | h | h | h <;> simp_all

/-- C5 counterexample: with threshold 1 (out of range) but a non-numeric
status-code entry, the module crashes on the status coercion before the bound
check runs, so it does not fail with an out-of-range validation message — the
claim's universally quantified form fails.  No remote call is made. -/
theorem C5_counterexample :
    pThrBadStatusBad.threshold = 1 ∧
    (pThrBadStatusBad.threshold < THRESHOLD_MIN ∨
      pThrBadStatusBad.threshold > THRESHOLD_MAX) ∧
    main envNoZone pThrBadStatusBad =
      ([], .pythonError ("invalid literal for int() with base 10: " ++ apos ++
        "abc" ++ apos)) ∧
    main envNoZone pThrBadStatusBad ≠ ([], .failJson thresholdMsg) ∧
    main envNoZone pThrBadStatusBad ≠ ([], .failJson periodMsg) := by
  refine ⟨rfl, by decide, ?_, by decide, by decide⟩
  rfl

/-- C5 (amended): for every input whose status-code list coerces successfully,
a threshold outside `[2, 1000000]` or a period outside `[2, 86400]` makes the
module fail with the corresponding out-of-range message, with an empty call
trace — before the zone lookup and before any store call, mutating or not. -/
theorem C5_bounds_reject (env : Env) (p : ModuleParams) (ns : List Int)
    (hOk : coerceStatuses p.match_response_status = .ok ns)
    (hBad : p.threshold < THRESHOLD_MIN ∨ p.threshold > THRESHOLD_MAX ∨
      p.period < PERIOD_MIN ∨ p.period > PERIOD_MAX) :
    main env p = ([], .failJson thresholdMsg) ∨
    main env p = ([], .failJson periodMsg) := by
  unfold main
  rw [hOk]
  dsimp only
  by_cases hthr : p.threshold < THRESHOLD_MIN ∨ p.threshold > THRESHOLD_MAX
  · left
    rw [if_pos hthr]
  · right
    rw [if_neg hthr]
    have hper : p.period < PERIOD_MIN ∨ p.period > PERIOD_MAX := by
      rcases hBad with h | h | h | h
      · exact absurd (Or.inl h) hthr
      · exact absurd (Or.inr h) hthr
      · exact Or.inl h
      · exact Or.inr h
    rw [if_pos hper]

/-- C5 witness: threshold 1 with the default (numeric) status list fails with
the threshold out-of-range message and an empty call trace. -/
theorem C5_witness :
    (coerceStatuses pThrBad.match_response_status = .ok [401] ∧
     (pThrBad.threshold < THRESHOLD_MIN ∨ pThrBad.threshold > THRESHOLD_MAX ∨
      pThrBad.period < PERIOD_MIN ∨ pThrBad.period > PERIOD_MAX)) ∧
    (main envNoZone pThrBad = ([], .failJson thresholdMsg) ∨
     main envNoZone pThrBad = ([], .failJson periodMsg)) :=
  ⟨⟨by decide, by decide⟩,
   C5_bounds_reject envNoZone pThrBad [401] (by decide) (by decide)⟩

/-- C6: every status-list element on which Python `int` succeeds is coerced to
the corresponding integer, and the canonical rule's `match.response` structure
carries exactly those integers; if any element is non-numeric, `main` fails
(an uncaught `ValueError`) before any remote call — its trace is empty. -/
theorem C6_status_coercion (env : Env) (p : ModuleParams) :
    ((∀ x ∈ p.match_response_status, numericIn x = true) →
      coerceStatuses p.match_response_status =
          .ok (p.match_response_status.map forceVal) ∧
        (buildMatch p (p.match_response_status.map forceVal)).response.status =
          p.match_response_status.map forceVal) ∧
    ((∃ x ∈ p.match_response_status, numericIn x = false) →
      ∃ msg, main env p = ([], .pythonError msg)) := by
  constructor
  · intro h
    exact ⟨coerceStatuses_ok_of_numeric _ h, rfl⟩
  · intro h
    obtain ⟨e, he⟩ := coerceStatuses_error_of_bad _ h
    refine ⟨e, ?_⟩
    unfold main
    rw [he]

/-- C6 witness: `"401"` is coerced to `401` (alongside an integer entry), and
an `"abc"` entry crashes the module with an empty call trace. -/
theorem C6_witness :
    ((∀ x ∈ pStatusStrings.match_response_status, numericIn x = true) ∧
     coerceStatuses pStatusStrings.match_response_status = .ok [401, 7]) ∧
    ((∃ x ∈ pStatusBad.match_response_status, numericIn x = false) ∧
     ∃ msg, main envNoZone pStatusBad = ([], .pythonError msg)) :=
  ⟨⟨by decide,
    ((C6_status_coercion envNoZone pStatusStrings).1 (by decide)).1⟩,
   ⟨by decide, (C6_status_coercion envNoZone pStatusBad).2 (by decide)⟩⟩

/-- C9: when the zone name resolves to zero matches, constructing `CF_API`
fails with the `UserWarning` zone-not-found error, and `main` (on an input
that passes coercion and the bound checks) surfaces it as a parameter-issue
failure after only the zone lookup — no rate-limit list, `put` or `post` call
is made. -/
theorem C9_zone_not_found (env : Env) (p : ModuleParams) (ns : List Int)
    (hz : env.zones p.zone_identifier = [])
    (hOk : coerceStatuses p.match_response_status = .ok ns)
    (hThr : THRESHOLD_MIN ≤ p.threshold ∧ p.threshold ≤ THRESHOLD_MAX)
    (hPer : PERIOD_MIN ≤ p.period ∧ p.period ≤ PERIOD_MAX) :
    CF_API.init env p.zone_identifier =
      ([Call.zonesGet p.zone_identifier],
       .error (.userWarning ("Zone " ++ apos ++ p.zone_identifier ++ apos ++
         " not found"))) ∧
    main env p =
      ([Call.zonesGet p.zone_identifier],
       .failJson ("Parameter issue, " ++ ("Zone " ++ apos ++
         p.zone_identifier ++ apos ++ " not found"))) := by
  have hinit : CF_API.init env p.zone_identifier =
      ([Call.zonesGet p.zone_identifier],
       .error (.userWarning ("Zone " ++ apos ++ p.zone_identifier ++ apos ++
         " not found"))) := by
    simp [CF_API.init, hz]
  refine ⟨hinit, ?_⟩
  have h1 : ¬(p.threshold < THRESHOLD_MIN ∨ p.threshold > THRESHOLD_MAX) := by
    simp only [THRESHOLD_MIN, THRESHOLD_MAX] at hThr ⊢
    omega
  have h2 : ¬(p.period < PERIOD_MIN ∨ p.period > PERIOD_MAX) := by
    simp only [PERIOD_MIN, PERIOD_MAX] at hPer ⊢
    omega
  unfold main
  rw [hOk]
  dsimp only
  rw [if_neg h1, if_neg h2, hinit]

/-- C9 witness: default parameters against a store with no matching zone fail
as a parameter issue with only the zone lookup in the trace. -/
theorem C9_witness :
    (envNoZone.zones pDefaults.zone_identifier = [] ∧
     coerceStatuses pDefaults.match_response_status = .ok [401] ∧
     (THRESHOLD_MIN ≤ pDefaults.threshold ∧
       pDefaults.threshold ≤ THRESHOLD_MAX) ∧
     (PERIOD_MIN ≤ pDefaults.period ∧ pDefaults.period ≤ PERIOD_MAX)) ∧
    main envNoZone pDefaults =
      ([Call.zonesGet pDefaults.zone_identifier],
       .failJson ("Parameter issue, " ++ ("Zone " ++ apos ++
         pDefaults.zone_identifier ++ apos ++ " not found"))) :=
  ⟨⟨rfl, by decide, by decide, by decide⟩,
   (C9_zone_not_found envNoZone pDefaults [401] rfl (by decide) (by decide)
     (by decide)).2⟩

/-- C10 counterexample: the store `[rDiff, rBad]` contains a rule (`rBad`)
whose URL matches the desired rule's but whose `description` key is missing;
reconcile nevertheless completes without a key-lookup error and issues an
update, because the search selects `rDiff` (the first URL match) and only the
selected rule is ever compared — the claim's universally quantified form
fails. -/
theorem C10_counterexample :
    (rBad ∈ (mkEnv [rDiff, rBad]).rate_limits "z" ∧ rBad.match_ = some m0 ∧
      rBad.description = none) ∧
    CF_API.create_ratelimit ⟨mkEnv [rDiff, rBad], "z"⟩ "" false 60 60 m0 a0
        true =
      ([Call.list "z", Call.put "z" "id1" data0],
       .ok (.payload (ruleOfData "id1" data0))) := by
  refine ⟨⟨by simp [mkEnv], rfl, rfl⟩, ?_⟩
  rfl

/-- C10 (amended): whenever the rule the URL search selects (the first listed
rule whose `match.request.url` equals the desired URL) is missing one of the
compared keys, the field comparison raises `KeyError` for some key rather than
treating the missing field as a difference, and reconcile aborts with that
error after only the listing call — no update is issued. -/
theorem C10_missing_key_aborts (env : Env) (z desc : String) (dis : Bool)
    (thr per : Int) (m : Match) (a : Action) (r : ExistingRule)
    (hFind : findLoop (env.rate_limits z) m.request.url = .ok (some r))
    (hMiss : r.action = none ∨ r.disabled = none ∨ r.period = none ∨
      r.threshold = none ∨ r.description = none) :
    ∃ k, CF_API.compare_existing_ratelimit r (mkData desc dis thr per m a) =
        .error (.keyError k) ∧
      CF_API.create_ratelimit ⟨env, z⟩ desc dis thr per m a true =
        ([Call.list z], .error (.keyError k)) := by
  obtain ⟨k, hk⟩ := compare_missing r (mkData desc dis thr per m a) hMiss
  refine ⟨k, hk, ?_⟩
  unfold CF_API.create_ratelimit CF_API.get_existing_ratelimit_id
    CF_API.list_zone_ratelimits
  dsimp only
  rw [hFind]
  simp [hk]

/-- C10 witness: a store whose only rule matches the URL but lacks the
`description` key makes reconcile abort with a `KeyError` and no mutation. -/
theorem C10_witness :
    (findLoop ((mkEnv [rBad]).rate_limits "z") m0.request.url =
       .ok (some rBad) ∧
     (rBad.action = none ∨ rBad.disabled = none ∨ rBad.period = none ∨
      rBad.threshold = none ∨ rBad.description = none)) ∧
    ∃ k, CF_API.compare_existing_ratelimit rBad
        (mkData "" false 60 60 m0 a0) = .error (.keyError k) ∧
      CF_API.create_ratelimit ⟨mkEnv [rBad], "z"⟩ "" false 60 60 m0 a0 true =
        ([Call.list "z"], .error (.keyError k)) :=
  ⟨⟨by decide, by decide⟩,
   C10_missing_key_aborts (mkEnv [rBad]) "z" "" false 60 60 m0 a0 rBad
     (by decide) (by decide)⟩

end CFR
